import Mathlib

/-!
Verification of the controller-manager core of `slimevr-wrangler`
(`src/joycon/controller_manager.rs` and `src/joycon/wiimote_integration.rs`).

The Rust source is shallowly embedded below:
* `Controller`, `Controller.disconnected`, `Controller.reconnect` embed the
  device abstraction in `controller_manager.rs`.
* `scan` embeds `ControllerManager::scan` (the hot-plug diff pass), with the
  HID enumeration replaced by an explicit list of visible endpoints.
* `CalibrationData` with `push_data`, `start_calibration_delayed` and
  `CalibrationData.new` embeds the calibration accumulator of
  `wiimote_integration.rs`; wall-clock instants are replaced by an explicit
  `elapsed` parameter (nanoseconds since `self.start`), and the external
  library routine `calibrate_zero_values` by an oracle function argument.
* `convert_battery` and `batteryStep` embed the battery bucketing and the
  debounced battery-event emission of `wiimote_listen_loop`.
-/

/-- State of the underlying library device (`JoyConDevice` / `WiimoteDevice`).
Modelled from the spec: the transport connection is present iff `connected`;
`stale` records that decoded state was marked stale on disconnect. -/
structure DeviceState where
  connected : Bool
  stale : Bool
deriving DecidableEq

/-- Modelled from the spec: the external library call
`JoyConDevice::forget_device`, which releases the transport connection and
marks decoded state as stale. -/
def forget_device (d : DeviceState) : DeviceState :=
  { d with connected := false, stale := true }

/-- Modelled from the spec: the external library call
`WiimoteDevice::disconnected`, which releases the transport connection and
marks decoded state as stale. -/
def wiimote_device_disconnected (d : DeviceState) : DeviceState :=
  { d with connected := false, stale := true }

/-- Modelled from the spec: the external library call
`JoyConDevice::reset_device`, run only after a successful endpoint open;
installs the fresh transport connection. -/
def reset_device (d : DeviceState) : DeviceState :=
  { d with connected := true, stale := false }

/-- Modelled from the spec: the external library call
`WiimoteDevice::reconnect`, which attempts to open the endpoint (`openOk`
says whether the open succeeds); on success installs the new connection and
returns `true`, on failure leaves the state untouched and returns `false`. -/
def wiimote_device_reconnect (d : DeviceState) (openOk : Bool) : DeviceState × Bool :=
  if openOk then ({ d with connected := true, stale := false }, true) else (d, false)

/-- `Controller` from `controller_manager.rs`: a polymorphic handle over the
two device families. -/
inductive Controller where
  | joyCon : DeviceState → Controller
  | wiimote : DeviceState → Controller
deriving DecidableEq

/-- The library `is_connected` query, uniform over the two families. -/
def Controller.is_connected : Controller → Bool
  | .joyCon d => d.connected
  | .wiimote d => d.connected

/-- The inner `DeviceState` of a handle, for stating state (non-)change. -/
def Controller.deviceState : Controller → DeviceState
  | .joyCon d => d
  | .wiimote d => d

/-- `Controller::disconnected` from `controller_manager.rs`: for either
family, if the device is connected, release it (`forget_device` /
`WiimoteDevice::disconnected`); otherwise do nothing. -/
def Controller.disconnected : Controller → Controller
  | .joyCon d => .joyCon (if d.connected then forget_device d else d)
  | .wiimote d => .wiimote (if d.connected then wiimote_device_disconnected d else d)

/-- `Controller::reconnect` from `controller_manager.rs`. `openOk` is the
outcome of the endpoint open attempt (`DeviceInfo::open_device` for the
Joy-Con family, the open inside `WiimoteDevice::reconnect` for the Wiimote
family). Returns the updated handle and the boolean result. -/
def Controller.reconnect : Controller → Bool → Controller × Bool
  | .joyCon d, openOk =>
    if d.connected = false then
      if openOk then (.joyCon (reset_device d), true) else (.joyCon d, false)
    else (.joyCon d, false)
  | .wiimote d, openOk =>
    if d.connected = false then
      let r := wiimote_device_reconnect d openOk
      (.wiimote r.1, r.2)
    else (.wiimote d, false)

/-- `Battery` bucket enum (`src/joycon`, re-exported; the five buckets used by
`convert_battery`). -/
inductive Battery where
  | empty
  | critical
  | low
  | medium
  | full
deriving DecidableEq

/-- `convert_battery` from `wiimote_integration.rs`: bucket a raw battery
byte. The Rust match arms are `..=10`, `11..=20`, `21..=40`, `41..=70`,
`71..` over `u8`. -/
def convert_battery (battery : Nat) : Battery :=
  if battery ≤ 10 then .empty
  else if battery ≤ 20 then .critical
  else if battery ≤ 40 then .low
  else if battery ≤ 70 then .medium
  else .full

/-- One status report in `wiimote_listen_loop`: given the tracked
`last_battery` and the raw byte, return the new `last_battery` and the
emitted battery event (`some` bucket iff an event is sent). Embeds
`if Some(battery_level) != last_battery { last_battery = ...; tx.send(...) }`. -/
def batteryStep (last : Option Battery) (raw : Nat) : Option Battery × Option Battery :=
  let lvl := convert_battery raw
  if some lvl ≠ last then (some lvl, some lvl) else (last, none)

/-- The tracked `last_battery` after a sequence of status reports. -/
def batteryLastAfter (last : Option Battery) (raws : List Nat) : Option Battery :=
  raws.foldl (fun l b => (batteryStep l b).1) last

/-- The battery events emitted over a sequence of status reports, in order:
on each report, `if Some(battery_level) != last_battery` the level is
emitted and becomes the new `last_battery`. -/
def batteryEvents (last : Option Battery) : List Nat → List Battery
  | [] => []
  | b :: rest =>
    if some (convert_battery b) ≠ last
    then convert_battery b :: batteryEvents (some (convert_battery b)) rest
    else batteryEvents last rest

/-- `CalibrationData::CALIBRATION_START_DELAY` (2 seconds), in milliseconds. -/
def CALIBRATION_START_DELAY : Nat := 2000

/-- `CalibrationData::CALIBRATION_COUNT`. -/
def CALIBRATION_COUNT : Nat := 16

/-- `CalibrationData` from `wiimote_integration.rs`. The `start : Instant`
field is dropped: every operation that reads `self.start.elapsed()` takes
the elapsed time as an explicit `elapsed` argument instead. Raw
`MotionPlusData` samples and `MotionPlusCalibration` references are
abstracted as `Nat`. -/
structure CalibrationData where
  calibrated : Bool
  start_offset : Nat
  data : List Nat
  calibration : Option Nat
deriving DecidableEq

/-- `CalibrationData::new`: not calibrated, settle deadline at the fixed
start delay, empty buffer, calibration seeded from the factory value. -/
def CalibrationData.new (motion_plus_calibration : Option Nat) : CalibrationData :=
  { calibrated := false
    start_offset := CALIBRATION_START_DELAY
    data := []
    calibration := motion_plus_calibration }

/-- `CalibrationData::start_calibration_delayed` at time `elapsed`. -/
def CalibrationData.start_calibration_delayed (cd : CalibrationData) (elapsed : Nat) :
    CalibrationData :=
  { cd with calibrated := false, start_offset := elapsed + CALIBRATION_START_DELAY }

/-- `CalibrationData::push_data` at time `elapsed`, with the external
`calibrate_zero_values` routine abstracted as the oracle `calibrate`.
Returns the updated state together with the number of calibration-derivation
attempts made during this call (0 or 1). -/
def CalibrationData.push_data (cd : CalibrationData) (elapsed : Nat) (x : Nat)
    (calibrate : List Nat → Option Nat) : CalibrationData × Nat :=
  if cd.calibrated = false ∧ cd.start_offset < elapsed then
    let data := cd.data ++ [x]
    if data.length = CALIBRATION_COUNT then
      match calibrate data with
      | some c => ({ cd with calibrated := true, data := [], calibration := some c }, 1)
      | none => ({ cd with data := [] }, 1)
    else ({ cd with data := data }, 0)
  else (cd, 0)

/-- Folding `push_data` over a list of `(elapsed, sample)` pairs. -/
def pushSeq (cd : CalibrationData) (calibrate : List Nat → Option Nat)
    (inputs : List (Nat × Nat)) : CalibrationData :=
  inputs.foldl (fun s p => (s.push_data p.1 p.2 calibrate).1) cd

/-- One motion data report (`InputReport::DataReport(0x35, _)`) as seen by
`wiimote_listen_loop`: the time it arrives, whether the A+B chord is held,
whether the 6-byte angular-rate block parses (`MotionPlusData::try_from`),
and the raw sample. -/
structure DataReport where
  elapsed : Nat
  chordAB : Bool
  decodeOk : Bool
  sample : Nat
deriving DecidableEq

/-- The calibration-relevant part of one `DataReport` iteration of
`wiimote_listen_loop`: the A+B chord re-arms calibration
(`start_calibration_delayed`); then `get_axis_data` yields a sample only
when a resolved calibration reference exists and the angular-rate block
parses, and only then is `push_data` called. Returns the updated state and
the number of calibration attempts. -/
def processDataReport (cd : CalibrationData) (r : DataReport)
    (calibrate : List Nat → Option Nat) : CalibrationData × Nat :=
  let cd1 := if r.chordAB then cd.start_calibration_delayed r.elapsed else cd
  if cd1.calibration.isSome ∧ r.decodeOk then
    cd1.push_data r.elapsed r.sample calibrate
  else (cd1, 0)

/-- Folding `processDataReport` over a sequence of data reports. -/
def reportSeq (cd : CalibrationData) (calibrate : List Nat → Option Nat)
    (rs : List DataReport) : CalibrationData :=
  rs.foldl (fun s r => (processDataReport s r calibrate).1) cd

/-- One HID endpoint as seen by a scan pass: the serial-number metadata (may
be absent), the two type probes (`JoyConDevice::check_type_of_device`,
`WiimoteDevice::get_wiimote_device_type`), and whether opening / constructing
a device on this endpoint succeeds (`JoyConDevice::new` / `WiimoteDevice::new`
on the new-device path, the endpoint open on the reconnect path). -/
structure Endpoint where
  serial : Option String
  joyconProbe : Bool
  wiimoteProbe : Bool
  openOk : Bool
deriving DecidableEq

/-- The registry (`ControllerManager::devices`), as an association list with
pairwise-distinct keys. -/
abbrev Registry := List (String × Controller)

/-- The serial identifiers present in a registry. -/
def regKeys (reg : Registry) : List String :=
  reg.map (·.1)

/-- The `detected_devices` list of `ControllerManager::scan`: visible
endpoints that pass either type probe and carry a serial number, paired with
that serial. -/
def detectedDevices (endpoints : List Endpoint) : List (Endpoint × String) :=
  (endpoints.filter fun e => e.joyconProbe || e.wiimoteProbe).filterMap
    fun e => e.serial.map fun s => (e, s)

/-- The set (as a list) of serial identifiers visible in this pass. -/
def visibleSerials (endpoints : List Endpoint) : List String :=
  (detectedDevices endpoints).map (·.2)

/-- The serials the disconnected-devices loop of `scan` iterates over:
known serials minus visible serials. -/
def removedSerials (reg : Registry) (endpoints : List Endpoint) : List String :=
  (regKeys reg).filter fun s => s ∉ visibleSerials endpoints

/-- The disconnected-devices loop of `scan`: each known handle whose serial
is not visible gets `disconnected()` invoked on it. -/
def markDisconnected (reg : Registry) (endpoints : List Endpoint) : Registry :=
  reg.map fun p => if p.1 ∈ visibleSerials endpoints then p else (p.1, p.2.disconnected)

/-- A fresh, just-constructed device handle (open connection installed). -/
def freshController (wiimote : Bool) : Controller :=
  if wiimote then .wiimote { connected := true, stale := false }
  else .joyCon { connected := true, stale := false }

/-- The second loop of `ControllerManager::scan` over `detected_devices`:
a known serial gets `reconnect` invoked on its existing handle (result
discarded); an unknown serial gets a new handle constructed — which may
fail — and on success the handle is pushed onto `new_devices` and inserted
into the registry. Returns the updated registry and the announced serials
in order. -/
def processDetected : List (Endpoint × String) → Registry → Registry × List String
  | [], reg => (reg, [])
  | (e, s) :: rest, reg =>
    if s ∈ regKeys reg then
      let reg1 := reg.map fun p => if p.1 = s then (p.1, (p.2.reconnect e.openOk).1) else p
      processDetected rest reg1
    else if e.openOk then
      let r := processDetected rest (reg ++ [(s, freshController e.wiimoteProbe)])
      (r.1, s :: r.2)
    else
      processDetected rest reg

/-- The observable outcome of one `ControllerManager::scan` pass: the
registry afterwards, the serials of the returned newly-discovered handles,
and the serials on whose handles `disconnected()` was invoked. -/
structure ScanResult where
  devices : Registry
  newDevices : List String
  disconnectCalls : List String
deriving DecidableEq

/-- `ControllerManager::scan`, one pass over the given visible endpoints:
first the disconnected-devices loop, then the new/reconnect loop. -/
def scan (reg : Registry) (endpoints : List Endpoint) : ScanResult :=
  { devices := (processDetected (detectedDevices endpoints) (markDisconnected reg endpoints)).1
    newDevices := (processDetected (detectedDevices endpoints) (markDisconnected reg endpoints)).2
    disconnectCalls := removedSerials reg endpoints }

/-- A sequence of scan passes, returning the outcome of each pass. -/
def scanRun (reg : Registry) : List (List Endpoint) → List ScanResult
  | [] => []
  | es :: rest =>
    let r := scan reg es
    r :: scanRun r.devices rest

/-- The registry after a sequence of scan passes. -/
def scanRunFinal (reg : Registry) (passes : List (List Endpoint)) : Registry :=
  passes.foldl (fun r es => (scan r es).devices) reg

/-- All serials announced as newly discovered over a sequence of passes. -/
def announcedAll (reg : Registry) (passes : List (List Endpoint)) : List String :=
  ((scanRun reg passes).map (·.newDevices)).flatten

/-- A visible Wiimote endpoint with serial `"A"` whose device construction
fails. -/
def epFail : Endpoint :=
  { serial := some "A", joyconProbe := false, wiimoteProbe := true, openOk := false }

/-- A visible Wiimote endpoint with serial `"A"` whose device construction
succeeds. -/
def epOk : Endpoint :=
  { serial := some "A", joyconProbe := false, wiimoteProbe := true, openOk := true }

/-- A calibration state holding 15 samples with an installed reference,
past its settle deadline. -/
def sampleState15 : CalibrationData :=
  { calibrated := false
    start_offset := 0
    data := List.replicate 15 0
    calibration := some 3 }

/-- A calibration oracle that always fails. -/
def failingCalibrate : List Nat → Option Nat := fun _ => none

/-- A calibration oracle that always succeeds with reference 1. -/
def okCalibrate : List Nat → Option Nat := fun _ => some 1

/-- A one-entry registry holding a connected Wiimote handle for serial
`"A"`. -/
def regA : Registry :=
  [("A", Controller.wiimote { connected := true, stale := false })]

set_option maxRecDepth 4096 in
/-- Claim C6: `convert_battery` maps every raw byte `b` to exactly one
bucket: `b ≤ 10 → Empty`, `11 ≤ b ≤ 20 → Critical`, `21 ≤ b ≤ 40 → Low`,
`41 ≤ b ≤ 70 → Medium`, `b > 70 → Full`. -/
theorem convert_battery_buckets (b : Fin 256) :
    (convert_battery b.val = .empty ↔ b.val ≤ 10)
    ∧ (convert_battery b.val = .critical ↔ 11 ≤ b.val ∧ b.val ≤ 20)
    ∧ (convert_battery b.val = .low ↔ 21 ≤ b.val ∧ b.val ≤ 40)
    ∧ (convert_battery b.val = .medium ↔ 41 ≤ b.val ∧ b.val ≤ 70)
    ∧ (convert_battery b.val = .full ↔ 71 ≤ b.val) := by
  revert b; decide

/-- Claim C8: `reconnect(endpoint)` returns `false` with the handle state
unchanged when the handle is already connected, and likewise when the handle
is disconnected but the endpoint open fails; it returns `true` exactly when
the handle was disconnected and the open succeeded, and then the new
connection is installed. -/
theorem reconnect_spec (c : Controller) (openOk : Bool) :
    (c.is_connected = true → c.reconnect openOk = (c, false))
    ∧ (c.is_connected = false → openOk = false → c.reconnect openOk = (c, false))
    ∧ ((c.reconnect openOk).2 = true ↔ c.is_connected = false ∧ openOk = true)
    ∧ ((c.reconnect openOk).2 = true → (c.reconnect openOk).1.is_connected = true) := by
  rcases c with ⟨cn, st⟩ | ⟨cn, st⟩ <;> cases cn <;> cases openOk <;>
    simp [Controller.reconnect, Controller.is_connected, wiimote_device_reconnect,
      reset_device]

/-- Witness for C8: a connected Joy-Con handle is left unchanged and
`reconnect` returns `false`. -/
theorem reconnect_spec_witness :
    (Controller.joyCon { connected := true, stale := false }).reconnect true
      = (Controller.joyCon { connected := true, stale := false }, false) :=
  (reconnect_spec (Controller.joyCon { connected := true, stale := false }) true).1 rfl

/-- Claim C9: `disconnected()` is idempotent: on a connected handle it
releases the transport connection and marks the state stale, on an
already-disconnected handle it is a no-op, and calling it twice equals
calling it once. -/
theorem disconnected_idempotent (c : Controller) :
    c.disconnected.disconnected = c.disconnected
    ∧ (c.is_connected = true →
        c.disconnected.deviceState = { connected := false, stale := true })
    ∧ (c.is_connected = false → c.disconnected = c) := by
  rcases c with ⟨cn, st⟩ | ⟨cn, st⟩ <;> cases cn <;>
    simp [Controller.disconnected, Controller.is_connected, Controller.deviceState,
      forget_device, wiimote_device_disconnected]

/-- Witness for C9: a connected Wiimote handle ends up released and stale. -/
theorem disconnected_idempotent_witness :
    (Controller.wiimote { connected := true, stale := false }).disconnected.deviceState
      = { connected := false, stale := true } :=
  (disconnected_idempotent (Controller.wiimote { connected := true, stale := false })).2.1 rfl

lemma push_data_of_guard_false (s : CalibrationData) (elapsed x : Nat)
    (calibrate : List Nat → Option Nat)
    (h : ¬(s.calibrated = false ∧ s.start_offset < elapsed)) :
    s.push_data elapsed x calibrate = (s, 0) := by
  simp [CalibrationData.push_data, h]

lemma push_data_of_full (s : CalibrationData) (elapsed x : Nat)
    (calibrate : List Nat → Option Nat)
    (h1 : s.calibrated = false) (h2 : s.start_offset < elapsed)
    (h3 : s.data.length + 1 = CALIBRATION_COUNT) :
    s.push_data elapsed x calibrate =
      (match calibrate (s.data ++ [x]) with
        | some c => ({ s with calibrated := true, data := [], calibration := some c }, 1)
        | none => ({ s with data := [] }, 1)) := by
  have hlen : (s.data ++ [x]).length = CALIBRATION_COUNT := by
    simp; omega
  simp [CalibrationData.push_data, h1, h2, hlen]

lemma push_data_of_not_full (s : CalibrationData) (elapsed x : Nat)
    (calibrate : List Nat → Option Nat)
    (h1 : s.calibrated = false) (h2 : s.start_offset < elapsed)
    (h3 : s.data.length + 1 ≠ CALIBRATION_COUNT) :
    s.push_data elapsed x calibrate = ({ s with data := s.data ++ [x] }, 0) := by
  have hlen : (s.data ++ [x]).length ≠ CALIBRATION_COUNT := by
    simp; omega
  simp [CalibrationData.push_data, h1, h2, hlen]
  exact fun h => absurd h h3

lemma push_data_length_lt (s : CalibrationData) (elapsed x : Nat)
    (calibrate : List Nat → Option Nat) (h : s.data.length < CALIBRATION_COUNT) :
    (s.push_data elapsed x calibrate).1.data.length < CALIBRATION_COUNT := by
  by_cases hg : s.calibrated = false ∧ s.start_offset < elapsed
  · by_cases hfull : s.data.length + 1 = CALIBRATION_COUNT
    · rw [push_data_of_full s elapsed x calibrate hg.1 hg.2 hfull]
      cases calibrate (s.data ++ [x]) <;> simp [CALIBRATION_COUNT]
    · rw [push_data_of_not_full s elapsed x calibrate hg.1 hg.2 hfull]
      simp; omega
  · rw [push_data_of_guard_false s elapsed x calibrate hg]
    exact h

lemma pushSeq_length_lt (calibrate : List Nat → Option Nat) :
    ∀ (inputs : List (Nat × Nat)) (s : CalibrationData),
      s.data.length < CALIBRATION_COUNT →
      (pushSeq s calibrate inputs).data.length < CALIBRATION_COUNT
  | [], _, h => h
  | p :: rest, s, h =>
    pushSeq_length_lt calibrate rest ((s.push_data p.1 p.2 calibrate).1)
      (push_data_length_lt s p.1 p.2 calibrate h)

/-- Claim C3: starting from a fresh state, the sample buffer never exceeds
`CALIBRATION_COUNT = 16` samples at any point along any push sequence; a
push makes a calibration attempt exactly when it brings the length to 16,
and such a push always leaves the buffer empty, whether or not the attempt
succeeds. -/
theorem calibration_buffer_bounded (c : Option Nat) (calibrate : List Nat → Option Nat)
    (inputs : List (Nat × Nat)) :
    (pushSeq (CalibrationData.new c) calibrate inputs).data.length ≤ CALIBRATION_COUNT
    ∧ (∀ (s : CalibrationData) (elapsed x : Nat),
        (s.push_data elapsed x calibrate).2 = 1 ↔
          s.calibrated = false ∧ s.start_offset < elapsed
            ∧ s.data.length + 1 = CALIBRATION_COUNT)
    ∧ (∀ (s : CalibrationData) (elapsed x : Nat),
        s.calibrated = false → s.start_offset < elapsed →
        s.data.length + 1 = CALIBRATION_COUNT →
        (s.push_data elapsed x calibrate).1.data = []) := by
  refine ⟨?_, ?_, ?_⟩
  · exact le_of_lt (pushSeq_length_lt calibrate inputs (CalibrationData.new c)
      (by simp [CalibrationData.new, CALIBRATION_COUNT]))
  · intro s elapsed x
    constructor
    · intro hone
      by_cases hg : s.calibrated = false ∧ s.start_offset < elapsed
      · by_cases hfull : s.data.length + 1 = CALIBRATION_COUNT
        · exact ⟨hg.1, hg.2, hfull⟩
        · rw [push_data_of_not_full s elapsed x calibrate hg.1 hg.2 hfull] at hone
          simp at hone
      · rw [push_data_of_guard_false s elapsed x calibrate hg] at hone
        simp at hone
    · rintro ⟨h1, h2, h3⟩
      rw [push_data_of_full s elapsed x calibrate h1 h2 h3]
      cases calibrate (s.data ++ [x]) <;> simp
  · intro s elapsed x h1 h2 h3
    rw [push_data_of_full s elapsed x calibrate h1 h2 h3]
    cases calibrate (s.data ++ [x]) <;> simp

/-- Witness for C3 at concrete inputs: a short push sequence stays within the
bound, and a push into a 15-sample state empties the buffer. -/
theorem calibration_buffer_bounded_witness :
    (pushSeq (CalibrationData.new (some 3)) okCalibrate [(2001, 5)]).data.length
        ≤ CALIBRATION_COUNT
    ∧ (sampleState15.push_data 1 0 failingCalibrate).1.data = [] :=
  ⟨(calibration_buffer_bounded (some 3) okCalibrate [(2001, 5)]).1,
    (calibration_buffer_bounded (some 3) failingCalibrate []).2.2 sampleState15 1 0
      rfl (by decide) (by decide)⟩

/-- Counterexample to claim C4: after a failed calibration attempt (oracle
returns `none`) on a full buffer, the very next sample is accumulated again
although no fresh trigger was observed — the code auto-retries. -/
theorem calibration_retry_counterexample :
    (sampleState15.push_data 1 0 failingCalibrate).1.calibration = some 3
    ∧ (sampleState15.push_data 1 0 failingCalibrate).1.data = []
    ∧ ((sampleState15.push_data 1 0 failingCalibrate).1.push_data 2 7
        failingCalibrate).1.data = [7]
    ∧ [7] ≠ ([] : List Nat) := by decide

/-- Claim C4 as amended: after a failed calibration-derivation attempt the
previous calibration state is kept and the buffer is cleared, but
accumulation resumes immediately with the next samples (automatic retry at
the next 16 samples) — no fresh trigger is required. -/
theorem calibration_failure_keeps_state (s : CalibrationData) (elapsed x : Nat)
    (calibrate : List Nat → Option Nat)
    (h1 : s.calibrated = false) (h2 : s.start_offset < elapsed)
    (h3 : s.data.length + 1 = CALIBRATION_COUNT)
    (h4 : calibrate (s.data ++ [x]) = none) :
    (s.push_data elapsed x calibrate).1 = { s with data := [] }
    ∧ (s.push_data elapsed x calibrate).2 = 1
    ∧ ∀ e2 y, s.start_offset < e2 →
        ((s.push_data elapsed x calibrate).1.push_data e2 y calibrate).1.data = [y] := by
  have hmain : s.push_data elapsed x calibrate = ({ s with data := [] }, 1) := by
    rw [push_data_of_full s elapsed x calibrate h1 h2 h3, h4]
  rw [hmain]
  refine ⟨rfl, rfl, ?_⟩
  intro e2 y he2
  rw [push_data_of_not_full ({ s with data := [] }) e2 y calibrate h1 he2
    (by simp [CALIBRATION_COUNT])]
  simp

/-- Witness for the amended C4 at concrete inputs. -/
theorem calibration_failure_keeps_state_witness :
    (sampleState15.push_data 1 0 failingCalibrate).1 = { sampleState15 with data := [] }
    ∧ (sampleState15.push_data 1 0 failingCalibrate).2 = 1 :=
  ⟨(calibration_failure_keeps_state sampleState15 1 0 failingCalibrate rfl (by decide)
      (by decide) rfl).1,
    (calibration_failure_keeps_state sampleState15 1 0 failingCalibrate rfl (by decide)
      (by decide) rfl).2.1⟩

/-- Counterexample to claim C5: a freshly constructed state with a factory
calibration has `calibrated = false` (not the `Calibrated` terminal state),
and a sample arriving after the initial 2-second delay is accumulated into
the buffer although no trigger chord was ever observed. -/
theorem fresh_state_counterexample :
    (CalibrationData.new (some 3)).calibrated = false
    ∧ (processDataReport (CalibrationData.new (some 3))
        { elapsed := 2001, chordAB := false, decodeOk := true, sample := 5 }
        failingCalibrate).1.data = [5]
    ∧ [5] ≠ ([] : List Nat) := by decide

lemma processDataReport_of_no_calibration (s : CalibrationData) (r : DataReport)
    (calibrate : List Nat → Option Nat) (h : s.calibration = none) :
    (processDataReport s r calibrate).1.data = s.data
    ∧ (processDataReport s r calibrate).1.calibration = none := by
  unfold processDataReport
  cases hc : r.chordAB <;>
    simp [CalibrationData.start_calibration_delayed, h]

/-- Claim C5 as amended: construction seeds the resolved reference from the
factory calibration (present iff supplied) but always starts with
`calibrated = false`; with no factory calibration, samples are dropped
forever (decoding never yields a sample to push, so the buffer stays empty
and no reference can ever be installed); with a factory calibration,
samples are accumulated automatically once the initial 2-second settle
delay from construction elapses, without any trigger being observed. -/
theorem fresh_state_behavior (c : Nat) (calibrate : List Nat → Option Nat)
    (rs : List DataReport) (r : DataReport)
    (h1 : r.chordAB = false) (h2 : r.decodeOk = true)
    (h3 : CALIBRATION_START_DELAY < r.elapsed) :
    ((CalibrationData.new none).calibration = none
      ∧ (CalibrationData.new (some c)).calibration = some c
      ∧ (CalibrationData.new (some c)).calibrated = false
      ∧ (CalibrationData.new none).calibrated = false)
    ∧ ((reportSeq (CalibrationData.new none) calibrate rs).data = []
      ∧ (reportSeq (CalibrationData.new none) calibrate rs).calibration = none)
    ∧ (processDataReport (CalibrationData.new (some c)) r calibrate).1.data
        = [r.sample] := by
  refine ⟨⟨rfl, rfl, rfl, rfl⟩, ?_, ?_⟩
  · have key : ∀ (l : List DataReport) (s : CalibrationData), s.calibration = none →
        (reportSeq s calibrate l).data = s.data
          ∧ (reportSeq s calibrate l).calibration = none := by
      intro l
      induction l with
      | nil => intro s hs; exact ⟨rfl, hs⟩
      | cons a l ih =>
        intro s hs
        have hstep := processDataReport_of_no_calibration s a calibrate hs
        have := ih (processDataReport s a calibrate).1 hstep.2
        exact ⟨this.1.trans hstep.1, this.2⟩
    simpa using key rs (CalibrationData.new none) rfl
  · unfold processDataReport
    rw [h1]
    simp only [if_false, Bool.false_eq_true]
    have hg : (CalibrationData.new (some c)).calibration.isSome ∧ r.decodeOk = true :=
      ⟨rfl, h2⟩
    rw [if_pos ⟨rfl, h2⟩]
    rw [push_data_of_not_full _ r.elapsed r.sample calibrate rfl h3
      (by simp [CalibrationData.new, CALIBRATION_COUNT])]
    simp [CalibrationData.new]

/-- Witness for the amended C5 at concrete inputs. -/
theorem fresh_state_behavior_witness :
    (reportSeq (CalibrationData.new none) failingCalibrate
        [{ elapsed := 2001, chordAB := false, decodeOk := true, sample := 5 }]).data = []
    ∧ (processDataReport (CalibrationData.new (some 3))
        { elapsed := 2001, chordAB := false, decodeOk := true, sample := 5 }
        failingCalibrate).1.data = [5] :=
  ⟨(fresh_state_behavior 3 failingCalibrate
      [{ elapsed := 2001, chordAB := false, decodeOk := true, sample := 5 }]
      { elapsed := 2001, chordAB := false, decodeOk := true, sample := 5 }
      rfl rfl (by decide)).2.1.1,
    (fresh_state_behavior 3 failingCalibrate []
      { elapsed := 2001, chordAB := false, decodeOk := true, sample := 5 }
      rfl rfl (by decide)).2.2⟩

lemma batteryStep_emit (last : Option Battery) (b : Nat)
    (h : some (convert_battery b) ≠ last) :
    batteryStep last b = (some (convert_battery b), some (convert_battery b)) := by
  simp [batteryStep, h]

lemma batteryStep_skip (last : Option Battery) (b : Nat)
    (h : some (convert_battery b) = last) :
    batteryStep last b = (last, none) := by
  simp [batteryStep, h]

lemma batteryEvents_cons_emit (last : Option Battery) (b : Nat) (rest : List Nat)
    (h : some (convert_battery b) ≠ last) :
    batteryEvents last (b :: rest)
      = convert_battery b :: batteryEvents (some (convert_battery b)) rest := by
  simp [batteryEvents, h]

lemma batteryEvents_cons_skip (last : Option Battery) (b : Nat) (rest : List Nat)
    (h : some (convert_battery b) = last) :
    batteryEvents last (b :: rest) = batteryEvents last rest := by
  simp [batteryEvents, h]

lemma batteryEvents_chain (raws : List Nat) :
    ∀ last : Option Battery,
      List.Chain' (· ≠ ·) (batteryEvents last raws)
      ∧ ∀ h ∈ (batteryEvents last raws).head?, some h ≠ last := by
  induction raws with
  | nil => intro last; simp [batteryEvents]
  | cons b rest ih =>
    intro last
    by_cases hb : some (convert_battery b) ≠ last
    · rw [batteryEvents_cons_emit last b rest hb]
      refine ⟨?_, ?_⟩
      · rw [List.chain'_cons']
        refine ⟨?_, (ih (some (convert_battery b))).1⟩
        intro h hh
        have hne := (ih (some (convert_battery b))).2 h hh
        intro hEq
        exact hne (by rw [hEq])
      · intro h hh
        simp only [List.head?_cons, Option.mem_def, Option.some_inj] at hh
        subst hh
        exact hb
    · rw [batteryEvents_cons_skip last b rest (not_not.mp hb)]
      exact ih last

lemma batteryLastAfter_or (raws : List Nat) :
    ∀ last : Option Battery,
      batteryLastAfter last raws = ((batteryEvents last raws).getLast?).or last := by
  induction raws with
  | nil => intro last; simp [batteryLastAfter, batteryEvents]
  | cons b rest ih =>
    intro last
    by_cases hb : some (convert_battery b) ≠ last
    · rw [batteryEvents_cons_emit last b rest hb]
      have hfold : batteryLastAfter last (b :: rest)
          = batteryLastAfter (some (convert_battery b)) rest := by
        simp [batteryLastAfter, batteryStep_emit last b hb]
      rw [hfold, ih (some (convert_battery b))]
      cases hev : batteryEvents (some (convert_battery b)) rest with
      | nil => simp
      | cons e es =>
        rw [List.getLast?_cons_cons]
        cases hg : (e :: es).getLast? with
        | none => simp at hg
        | some z => simp
    · rw [batteryEvents_cons_skip last b rest (not_not.mp hb)]
      have hfold : batteryLastAfter last (b :: rest) = batteryLastAfter last rest := by
        simp [batteryLastAfter, batteryStep_skip last b (not_not.mp hb)]
      rw [hfold]
      exact ih last

/-- Claim C7: over any sequence of status reports, the emitted battery
events never repeat a bucket consecutively; the tracked `last_battery`
always equals the last emitted bucket (or `none` if nothing was emitted
yet); and the next status report emits an event exactly when its bucket
differs from that last emitted bucket. -/
theorem battery_debounce (raws : List Nat) :
    List.Chain' (· ≠ ·) (batteryEvents none raws)
    ∧ batteryLastAfter none raws = (batteryEvents none raws).getLast?
    ∧ ∀ b : Nat,
        (batteryStep (batteryLastAfter none raws) b).2
          = if some (convert_battery b) ≠ batteryLastAfter none raws
            then some (convert_battery b) else none := by
  refine ⟨(batteryEvents_chain raws none).1, ?_, ?_⟩
  · rw [batteryLastAfter_or raws none]
    cases (batteryEvents none raws).getLast? <;> simp
  · intro b
    by_cases hb : some (convert_battery b) ≠ batteryLastAfter none raws
    · rw [batteryStep_emit _ b hb, if_pos hb]
    · rw [batteryStep_skip _ b (not_not.mp hb), if_neg hb]

/-- Witness for C7: raw levels 75 then 80 bucket to `Full` twice (one event),
then 5 buckets to `Empty`; consecutive events differ. -/
theorem battery_debounce_witness :
    List.Chain' (· ≠ ·) (batteryEvents none [75, 80, 5]) :=
  (battery_debounce [75, 80, 5]).1

lemma regKeys_map_preserve (reg : Registry) (g : String × Controller → String × Controller)
    (hg : ∀ p, (g p).1 = p.1) : regKeys (reg.map g) = regKeys reg := by
  unfold regKeys
  rw [List.map_map]
  exact List.map_congr_left fun p _ => hg p

lemma regKeys_markDisconnected (reg : Registry) (es : List Endpoint) :
    regKeys (markDisconnected reg es) = regKeys reg := by
  apply regKeys_map_preserve
  intro p
  by_cases h : p.1 ∈ visibleSerials es <;> simp [h]

lemma regKeys_append (r1 r2 : Registry) :
    regKeys (r1 ++ r2) = regKeys r1 ++ regKeys r2 :=
  List.map_append _ r1 r2

lemma processDetected_keys :
    ∀ (l : List (Endpoint × String)) (reg : Registry),
      regKeys (processDetected l reg).1 = regKeys reg ++ (processDetected l reg).2
      ∧ ((regKeys reg).Nodup → (regKeys (processDetected l reg).1).Nodup) := by
  intro l
  induction l with
  | nil => intro reg; simp [processDetected]
  | cons p rest ih =>
    intro reg
    obtain ⟨e, s⟩ := p
    by_cases hk : s ∈ regKeys reg
    · have hred : processDetected ((e, s) :: rest) reg
          = processDetected rest
              (reg.map fun q => if q.1 = s then (q.1, (q.2.reconnect e.openOk).1) else q) := by
        simp [processDetected, hk]
      have hkeys : regKeys (reg.map fun q =>
          if q.1 = s then (q.1, (q.2.reconnect e.openOk).1) else q) = regKeys reg := by
        apply regKeys_map_preserve
        intro q
        by_cases hq : q.1 = s <;> simp [hq]
      rw [hred]
      refine ⟨?_, ?_⟩
      · rw [(ih _).1, hkeys]
      · intro hnd
        exact (ih _).2 (hkeys ▸ hnd)
    · by_cases ho : e.openOk
      · have hred : processDetected ((e, s) :: rest) reg
            = ((processDetected rest (reg ++ [(s, freshController e.wiimoteProbe)])).1,
                s :: (processDetected rest (reg ++ [(s, freshController e.wiimoteProbe)])).2) := by
          simp [processDetected, hk, ho]
        have hkeys : regKeys (reg ++ [(s, freshController e.wiimoteProbe)])
            = regKeys reg ++ [s] := regKeys_append _ _
        rw [hred]
        refine ⟨?_, ?_⟩
        · rw [(ih _).1, hkeys]
          simp
        · intro hnd
          apply (ih _).2
          rw [hkeys, List.nodup_append]
          refine ⟨hnd, List.nodup_singleton s, ?_⟩
          intro a ha hb
          simp at hb
          subst hb
          exact hk ha
      · have hred : processDetected ((e, s) :: rest) reg = processDetected rest reg := by
          simp [processDetected, hk, ho]
        rw [hred]
        exact ih reg

lemma scan_keys (reg : Registry) (es : List Endpoint) :
    regKeys (scan reg es).devices = regKeys reg ++ (scan reg es).newDevices
    ∧ ((regKeys reg).Nodup → (regKeys (scan reg es).devices).Nodup) := by
  have h1 := regKeys_markDisconnected reg es
  have h2 := processDetected_keys (detectedDevices es) (markDisconnected reg es)
  refine ⟨?_, ?_⟩
  · show regKeys (processDetected (detectedDevices es) (markDisconnected reg es)).1
      = regKeys reg ++ (processDetected (detectedDevices es) (markDisconnected reg es)).2
    rw [h2.1, h1]
  · intro hnd
    exact h2.2 (h1 ▸ hnd)

lemma processDetected_preserves :
    ∀ (l : List (Endpoint × String)) (reg : Registry) (s : String) (c : Controller),
      (s, c) ∈ reg → s ∉ l.map (·.2) → (s, c) ∈ (processDetected l reg).1 := by
  intro l
  induction l with
  | nil => intro reg s c hmem _; exact hmem
  | cons p rest ih =>
    intro reg s c hmem hvis
    obtain ⟨e, s2⟩ := p
    have hs2 : s ≠ s2 := by
      intro hEq
      exact hvis (by simp [hEq])
    have hvis2 : s ∉ rest.map (·.2) := fun h => hvis (by simp [h])
    by_cases hk : s2 ∈ regKeys reg
    · have hred : processDetected ((e, s2) :: rest) reg
          = processDetected rest
              (reg.map fun q => if q.1 = s2 then (q.1, (q.2.reconnect e.openOk).1) else q) := by
        simp [processDetected, hk]
      rw [hred]
      apply ih _ s c _ hvis2
      have := List.mem_map_of_mem
        (f := fun q => if q.1 = s2 then (q.1, (q.2.reconnect e.openOk).1) else q) hmem
      simpa [hs2] using this
    · by_cases ho : e.openOk
      · have hred : processDetected ((e, s2) :: rest) reg
            = ((processDetected rest (reg ++ [(s2, freshController e.wiimoteProbe)])).1,
                s2 :: (processDetected rest (reg ++ [(s2, freshController e.wiimoteProbe)])).2) := by
          simp [processDetected, hk, ho]
        rw [hred]
        exact ih _ s c (List.mem_append_left _ hmem) hvis2
      · have hred : processDetected ((e, s2) :: rest) reg = processDetected rest reg := by
          simp [processDetected, hk, ho]
        rw [hred]
        exact ih reg s c hmem hvis2

/-- Claim C2: the registry keys stay pairwise distinct across a scan pass;
no entry is ever removed; `disconnected()` is invoked exactly once on each
serial that was present before the pass and is not visible in it (and on no
other serial); and such an entry remains in the registry afterwards, with
`disconnected()` applied to its handle. -/
theorem scan_disconnect_spec (reg : Registry) (es : List Endpoint)
    (h : (regKeys reg).Nodup) :
    (regKeys (scan reg es).devices).Nodup
    ∧ (∀ s, s ∈ regKeys reg → s ∈ regKeys (scan reg es).devices)
    ∧ (scan reg es).disconnectCalls
        = (regKeys reg).filter (fun s => s ∉ visibleSerials es)
    ∧ (scan reg es).disconnectCalls.Nodup
    ∧ (∀ s, s ∈ (scan reg es).disconnectCalls ↔
        s ∈ regKeys reg ∧ s ∉ visibleSerials es)
    ∧ ∀ s c, (s, c) ∈ reg → s ∉ visibleSerials es →
        (s, c.disconnected) ∈ (scan reg es).devices := by
  refine ⟨(scan_keys reg es).2 h, ?_, rfl, ?_, ?_, ?_⟩
  · intro s hs
    rw [(scan_keys reg es).1]
    exact List.mem_append_left _ hs
  · show ((regKeys reg).filter fun s => s ∉ visibleSerials es).Nodup
    exact h.filter _
  · intro s
    show s ∈ (regKeys reg).filter (fun s => s ∉ visibleSerials es) ↔ _
    simp [List.mem_filter]
  · intro s c hmem hvis
    show (s, c.disconnected) ∈ (processDetected (detectedDevices es)
      (markDisconnected reg es)).1
    apply processDetected_preserves _ _ s c.disconnected _ hvis
    have := List.mem_map_of_mem
      (f := fun p : String × Controller =>
        if p.1 ∈ visibleSerials es then p else (p.1, p.2.disconnected)) hmem
    simpa [markDisconnected, hvis] using this

/-- Witness for C2: a registry holding serial `"A"` scanned against an empty
endpoint list keeps the entry and reports exactly one `disconnected()`
call. -/
theorem scan_disconnect_spec_witness :
    "A" ∈ regKeys (scan regA []).devices
    ∧ (scan regA []).disconnectCalls
        = (regKeys regA).filter (fun s => s ∉ visibleSerials []) :=
  ⟨(scan_disconnect_spec regA [] (by decide)).2.1 "A" (by decide),
    (scan_disconnect_spec regA [] (by decide)).2.2.1⟩

lemma scanRunFinal_keys :
    ∀ (passes : List (List Endpoint)) (reg : Registry),
      regKeys (scanRunFinal reg passes) = regKeys reg ++ announcedAll reg passes
      ∧ ((regKeys reg).Nodup → (regKeys (scanRunFinal reg passes)).Nodup) := by
  intro passes
  induction passes with
  | nil => intro reg; simp [scanRunFinal, announcedAll, scanRun]
  | cons es rest ih =>
    intro reg
    have hfin : scanRunFinal reg (es :: rest) = scanRunFinal (scan reg es).devices rest :=
      rfl
    have hann : announcedAll reg (es :: rest)
        = (scan reg es).newDevices ++ announcedAll (scan reg es).devices rest := by
      simp [announcedAll, scanRun]
    rw [hfin, hann]
    refine ⟨?_, ?_⟩
    · rw [(ih _).1, (scan_keys reg es).1, List.append_assoc]
    · intro hnd
      exact (ih _).2 ((scan_keys reg es).2 hnd)

/-- Counterexample to claim C1 as stated: serial `"A"` becomes visible on
the first pass, but device construction fails there, so the newly-discovered
list of that first pass is empty and `"A"` is announced only on the second
pass — not on the pass it first appears. -/
theorem scan_first_pass_counterexample :
    "A" ∈ visibleSerials [epFail]
    ∧ (scanRun [] [[epFail], [epOk]]).map (·.newDevices) = [[], ["A"]] := by decide

/-- Claim C1 as amended: over any sequence of scan passes starting from a
registry with pairwise-distinct serials, the serials announced as newly
discovered are exactly the serials newly inserted into the registry, each
announced at most once over the whole run and never a serial already
present (a reconnection is handled via `reconnect()` on the existing
handle, not re-announced); announcement happens on the first pass where the
handle construction succeeds, which need not be the pass the serial first
appears. -/
theorem scan_announces_at_most_once (reg : Registry) (passes : List (List Endpoint))
    (h : (regKeys reg).Nodup) :
    regKeys (scanRunFinal reg passes) = regKeys reg ++ announcedAll reg passes
    ∧ (regKeys reg ++ announcedAll reg passes).Nodup := by
  refine ⟨(scanRunFinal_keys passes reg).1, ?_⟩
  rw [← (scanRunFinal_keys passes reg).1]
  exact (scanRunFinal_keys passes reg).2 h

/-- Witness for the amended C1: the failing-then-succeeding run announces
`"A"` exactly once in total, and the final registry keys are exactly the
announced serials. -/
theorem scan_announces_at_most_once_witness :
    regKeys (scanRunFinal [] [[epFail], [epOk]])
      = regKeys ([] : Registry) ++ announcedAll [] [[epFail], [epOk]]
    ∧ (regKeys ([] : Registry) ++ announcedAll [] [[epFail], [epOk]]).Nodup :=
  scan_announces_at_most_once [] [[epFail], [epOk]] (by decide)

lemma detectedDevices_filter (es : List Endpoint) :
    detectedDevices (es.filter fun e => e.serial.isSome) = detectedDevices es := by
  induction es with
  | nil => rfl
  | cons e rest ih =>
    cases hs : e.serial with
    | none =>
      by_cases hp : (e.joyconProbe || e.wiimoteProbe) = true <;>
        simp [detectedDevices, List.filter_cons, hs, hp] at ih ⊢ <;>
        exact ih
    | some s =>
      by_cases hp : (e.joyconProbe || e.wiimoteProbe) = true <;>
        simp [detectedDevices, List.filter_cons, hs, hp] at ih ⊢ <;>
        exact ih

/-- Claim C10: a visible endpoint whose metadata carries no serial number is
skipped entirely by `scan`: the pass is indistinguishable from one where
that endpoint is absent (no handle constructed, nothing inserted, nothing
announced), and it is not counted as a visible serial when computing
removals. -/
theorem scan_skips_serialless (reg : Registry) (endpoints : List Endpoint) :
    scan reg endpoints = scan reg (endpoints.filter fun e => e.serial.isSome)
    ∧ visibleSerials endpoints
        = visibleSerials (endpoints.filter fun e => e.serial.isSome) := by
  have hd := detectedDevices_filter endpoints
  constructor
  · unfold scan markDisconnected removedSerials visibleSerials
    rw [hd]
  · unfold visibleSerials
    rw [hd]
